import Mathlib

/-!
Verification development for a bounded multi-threaded breadth-first web
crawler (main.py) and its report generator (interpret.py).

The crawler keeps a visited set, a frontier queue of (url, depth) pairs and
three append-only record tables (fetch_data, visit_data, urls_data).  Each
worker iteration claims a queue entry, checks it under a lock
(already-visited / depth over max_depth / page budget exhausted), fetches
it, and on a 200 HTML response extracts hrefs, resolves them with urljoin,
classifies each by whether urlparse(abs_url).netloc ends with
"latimes.com", appends link records, enqueues unvisited internal links and
appends a visit record.

We embed the worker loop as a step function on an explicit crawl state,
with the outcome of the HTTP fetch (an external collaborator) supplied as
an input to the step.  The URL-resolution functions model the Python
urllib.parse functions (urlparse / urljoin) on character lists.
-/

set_option maxRecDepth 4000

namespace Crawler

/-! ### Python string primitives, modelled on character lists -/

/-- Python str.split with a one-character separator. -/
def pySplitChar (sep : Char) : List Char → List (List Char)
  | [] => [[]]
  | c :: cs =>
    let r := pySplitChar sep cs
    if c = sep then
      [] :: r
    else
      match r with
      | [] => [[c]]
      | h :: t => (c :: h) :: t

/-- Python str.strip (ASCII whitespace). -/
def pyStripChars (s : List Char) : List Char :=
  ((s.dropWhile Char.isWhitespace).reverse.dropWhile Char.isWhitespace).reverse

/-- Join a list of segments with a one-character separator, Python sep.join. -/
def pyJoinChar (sep : Char) : List (List Char) → List Char
  | [] => []
  | [x] => x
  | x :: y :: ys => x ++ sep :: pyJoinChar sep (y :: ys)

/-- Python s.startswith(p), as used on content types. -/
def pyStartsWith (s p : String) : Bool :=
  p.data.isPrefixOf s.data

/-- Python s.endswith(p), as used on netlocs. -/
def pyEndsWith (s p : String) : Bool :=
  p.data.isSuffixOf s.data

/-! ### Model of urllib.parse: urlparse / urljoin

Translated from the CPython urllib.parse module (urlsplit, urlunsplit, urljoin),
restricted to the parts the crawler exercises: the params component of
urlparse is not modelled separately (it is carried inside the path). -/

/-- The components returned by urlsplit. -/
structure UrlParts where
  scheme : List Char
  netloc : List Char
  path : List Char
  query : List Char
  fragment : List Char
  deriving Repr, DecidableEq

/-- Characters allowed in a URL scheme. -/
def isSchemeChar (c : Char) : Bool :=
  c.isAlphanum || c = '+' || c = '-' || c = '.'

/-- Scheme extraction of urlsplit: a leading alphabetic run of scheme
characters followed by a colon; the scheme is lowercased. -/
def splitScheme (s : List Char) : List Char × List Char :=
  let pre := s.takeWhile isSchemeChar
  let rest := s.drop pre.length
  match rest with
  | ':' :: r =>
    match pre with
    | [] => ([], s)
    | c :: _ => if c.isAlpha then (pre.map Char.toLower, r) else ([], s)
  | _ => ([], s)

/-- Netloc extraction of urlsplit: after a leading "//", up to the first
slash, question mark or hash. -/
def splitNetloc (s : List Char) : List Char × List Char :=
  match s with
  | '/' :: '/' :: r =>
    let n := r.takeWhile (fun c => !(c = '/' || c = '?' || c = '#'))
    (n, r.drop n.length)
  | _ => ([], s)

/-- Fragment split: everything after the first hash. -/
def splitFragment (s : List Char) : List Char × List Char :=
  match pySplitChar '#' s with
  | [] => (s, [])
  | x :: rest =>
    if rest.isEmpty then (x, []) else (x, pyJoinChar '#' rest)

/-- Query split: everything after the first question mark. -/
def splitQuery (s : List Char) : List Char × List Char :=
  match pySplitChar '?' s with
  | [] => (s, [])
  | x :: rest =>
    if rest.isEmpty then (x, []) else (x, pyJoinChar '?' rest)

/-- Model of urllib.parse.urlsplit with a default scheme. -/
def urlsplit (url : List Char) (defaultScheme : List Char) : UrlParts :=
  let (scheme, rest) := splitScheme url
  let scheme := if scheme.isEmpty then defaultScheme else scheme
  let (netloc, rest) := splitNetloc rest
  let (rest, fragment) := splitFragment rest
  let (path, query) := splitQuery rest
  ⟨scheme, netloc, path, query, fragment⟩

/-- Model of urllib.parse.urlunsplit. -/
def urlunsplit (p : UrlParts) : List Char :=
  let url := p.path
  let url :=
    if !p.netloc.isEmpty || ['/', '/'].isPrefixOf url then
      let url := if !url.isEmpty && !(['/'].isPrefixOf url) then '/' :: url else url
      '/' :: '/' :: (p.netloc ++ url)
    else url
  let url := if !p.scheme.isEmpty then p.scheme ++ ':' :: url else url
  let url := if !p.query.isEmpty then url ++ '?' :: p.query else url
  if !p.fragment.isEmpty then url ++ '#' :: p.fragment else url

/-- Schemes that allow relative resolution (urllib.parse.uses_relative). -/
def uses_relative : List (List Char) :=
  ["", "ftp", "http", "gopher", "nntp", "imap", "wais", "file", "https",
   "shttp", "mms", "prospero", "rtsp", "rtspu", "sftp", "svn", "svn+ssh",
   "ws", "wss"].map String.data

/-- Schemes that use a netloc (urllib.parse.uses_netloc). -/
def uses_netloc : List (List Char) :=
  ["", "ftp", "http", "gopher", "nntp", "telnet", "imap", "wais", "file",
   "mms", "https", "shttp", "snews", "prospero", "rtsp", "rtspu", "rsync",
   "svn", "svn+ssh", "sftp", "nfs", "git", "git+ssh", "ws", "wss"].map
    String.data

/-- Dot-segment resolution loop of urljoin. -/
def resolveSegments (segs : List (List Char)) : List (List Char) :=
  segs.foldl
    (fun acc seg =>
      if seg = ['.', '.'] then acc.dropLast
      else if seg = ['.'] then acc
      else acc ++ [seg])
    []

/-- Drop empty interior segments, keeping the first and last
(the segments[1:-1] = filter(None, ...) step of urljoin). -/
def filterInterior : List (List Char) → List (List Char)
  | [] => []
  | [x] => [x]
  | x :: xs => x :: filterInteriorTail xs
where
  filterInteriorTail : List (List Char) → List (List Char)
    | [] => []
    | [x] => [x]
    | x :: xs =>
      if x.isEmpty then filterInteriorTail xs else x :: filterInteriorTail xs

/-- Model of urllib.parse.urljoin on character lists. -/
def urljoinChars (base url : List Char) : List Char :=
  if base.isEmpty then url
  else if url.isEmpty then base
  else
    let b := urlsplit base []
    let r := urlsplit url b.scheme
    if r.scheme ≠ b.scheme || ¬ r.scheme ∈ uses_relative then url
    else
      let netloc :=
        if r.scheme ∈ uses_netloc then
          if !r.netloc.isEmpty then r.netloc else b.netloc
        else r.netloc
      if r.scheme ∈ uses_netloc ∧ !r.netloc.isEmpty then
        urlunsplit ⟨r.scheme, r.netloc, r.path, r.query, r.fragment⟩
      else if r.path.isEmpty then
        urlunsplit ⟨r.scheme, netloc, b.path,
          (if r.query.isEmpty then b.query else r.query), r.fragment⟩
      else
        let baseParts := pySplitChar '/' b.path
        let baseParts :=
          match baseParts.getLast? with
          | some l => if l.isEmpty then baseParts else baseParts.dropLast
          | none => baseParts
        let segments :=
          if ['/'].isPrefixOf r.path then pySplitChar '/' r.path
          else filterInterior (baseParts ++ pySplitChar '/' r.path)
        let resolved := resolveSegments segments
        let resolved :=
          match segments.getLast? with
          | some l => if l = ['.'] || l = ['.', '.'] then resolved ++ [[]] else resolved
          | none => resolved
        let joined := pyJoinChar '/' resolved
        let joined := if joined.isEmpty then ['/'] else joined
        urlunsplit ⟨r.scheme, netloc, joined, r.query, r.fragment⟩

/-- urljoin on strings, as called at main.py line 130. -/
def urljoin (base url : String) : String :=
  ⟨urljoinChars base.data url.data⟩

/-- The netloc of a URL, as urlparse(url).netloc at main.py line 132. -/
def netloc_of (url : String) : String :=
  ⟨(urlsplit url.data []).netloc⟩

/-! ### Crawler configuration and data model (main.py) -/

/-- The configuration surface: root URL, page budget and depth bound
(main.py lines 13-15; the politeness delay and thread count do not affect
the recorded data). -/
structure Config where
  root_url : String
  max_pages : Nat
  max_depth : Nat
  deriving Repr, DecidableEq

/-- The values hard-coded in main.py. -/
def defaultConfig : Config :=
  { root_url := "https://www.latimes.com", max_pages := 20000, max_depth := 16 }

/-- Allowed non-HTML content types (main.py lines 21-27). -/
def allowed_types : List String :=
  ["application/pdf", "application/msword", "image/jpeg", "image/png",
   "image/gif"]

/-- The status column of a fetch record: an HTTP status code, or the string
"Error" on a transport failure. -/
inductive Status where
  | code (n : Nat)
  | error
  deriving Repr, DecidableEq

/-- The shared crawl state: visited set (modelled as a duplicate-free list),
frontier queue of (url, depth) pairs, and the three append-only tables
fetch_data, visit_data ((url, file size, outlink count, content type)) and
urls_data ((url, indicator)). -/
structure CrawlState where
  visited : List String
  queue : List (String × Nat)
  fetch_data : List (String × Status)
  visit_data : List (String × Nat × Nat × String)
  urls_data : List (String × String)
  deriving Repr, DecidableEq

/-- The fresh initial state: the seed URL at depth 0 (main.py line 86). -/
def initState (cfg : Config) : CrawlState :=
  { visited := [], queue := [(cfg.root_url, 0)], fetch_data := [],
    visit_data := [], urls_data := [] }

/-- The outcome of one HTTP GET, supplied by the external fetch client:
either a transport failure (any exception from requests.get) or a response
with a status code, optional Content-Type header, body size and the raw
href attributes that BeautifulSoup would extract from the body. -/
inductive FetchOutcome where
  | transportError
  | response (status : Nat) (contentTypeHeader : Option String)
      (bodySize : Nat) (hrefs : List String)
  deriving Repr, DecidableEq

/-- The parameter-stripped content type (main.py lines 118-119): the header
value (empty when the header is missing) up to the first semicolon, with
surrounding whitespace stripped. -/
def content_type_of (header : Option String) : String :=
  ⟨pyStripChars ((header.getD "").data.takeWhile (fun c => c ≠ ';'))⟩

/-- The indicator computed at main.py line 132: "OK" when
urlparse(abs_url).netloc ends with "latimes.com", otherwise "N_OK". -/
def indicator_of (abs_url : String) : String :=
  if pyEndsWith (netloc_of abs_url) "latimes.com" then "OK" else "N_OK"

/-- Resolution and classification of one href against a base page URL
(main.py lines 130-132). -/
def resolve_and_classify (base href : String) : String × String :=
  let abs_url := urljoin base href
  (abs_url, indicator_of abs_url)

/-- Python set.add modelled on a list: append the element unless already
present. -/
def addDistinct (s : List String) (a : String) : List String :=
  if a ∈ s then s else s ++ [a]

/-- One iteration of the href loop (main.py lines 128-138): resolve the
href, add it to the outlinks set, append a link record, and enqueue it at
depth+1 when it is internal and not yet visited.  The accumulator carries
the outlinks set (as a duplicate-free list) and the shared state. -/
def processHref (current_url : String) (depth : Nat)
    (acc : List String × CrawlState) (href : String) :
    List String × CrawlState :=
  let (outlinks, st) := acc
  let abs_url := urljoin current_url href
  let outlinks := addDistinct outlinks abs_url
  let indicator := indicator_of abs_url
  let st := { st with urls_data := st.urls_data ++ [(abs_url, indicator)] }
  let st :=
    if indicator = "OK" ∧ abs_url ∉ st.visited then
      { st with queue := st.queue ++ [(abs_url, depth + 1)] }
    else st
  (outlinks, st)

/-- Handling of a 200 response (main.py lines 117-147): strip the content
type; when it is allowed or HTML, process the hrefs (HTML only) and append
a visit record whose outlink count is the number of distinct resolved
targets (0 for non-HTML allowed types). -/
def handle200 (current_url : String) (depth : Nat)
    (contentTypeHeader : Option String) (bodySize : Nat)
    (hrefs : List String) (st : CrawlState) : CrawlState :=
  let content_type := content_type_of contentTypeHeader
  if content_type ∈ allowed_types || pyStartsWith content_type "text/html" then
    if pyStartsWith content_type "text/html" then
      let r := hrefs.foldl (processHref current_url depth) ([], st)
      { r.2 with
        visit_data := r.2.visit_data ++
          [(current_url, bodySize, r.1.length, content_type)] }
    else
      { st with
        visit_data := st.visit_data ++
          [(current_url, bodySize, 0, content_type)] }
  else st

/-- One full worker iteration (main.py lines 90-157): claim the head of the
queue; discard it under the lock when it is already visited, over the depth
bound, or the page budget is reached; otherwise mark it visited and fetch.
A transport failure appends an "Error" fetch record; a response appends a
fetch record with its status code, and a 200 response is further processed
by handle200.  On an empty queue the worker exits and the state is
unchanged. -/
def workerStep (cfg : Config) (st : CrawlState) (f : FetchOutcome) :
    CrawlState :=
  match st.queue with
  | [] => st
  | (current_url, depth) :: rest =>
    let st1 : CrawlState := { st with queue := rest }
    if current_url ∈ st1.visited ∨ depth > cfg.max_depth ∨
        st1.visited.length ≥ cfg.max_pages then
      st1
    else
      let st2 : CrawlState := { st1 with visited := st1.visited ++ [current_url] }
      match f with
      | .transportError =>
        { st2 with fetch_data := st2.fetch_data ++ [(current_url, .error)] }
      | .response status hdr size hrefs =>
        let st3 : CrawlState :=
          { st2 with fetch_data := st2.fetch_data ++ [(current_url, .code status)] }
        if status = 200 then handle200 current_url depth hdr size hrefs st3
        else st3

/-- The states reachable by a fresh crawl: the initial seed state, closed
under worker iterations with arbitrary fetch outcomes. -/
inductive Reachable (cfg : Config) : CrawlState → Prop
  | init : Reachable cfg (initState cfg)
  | step {st : CrawlState} (f : FetchOutcome) :
      Reachable cfg st → Reachable cfg (workerStep cfg st f)

/-! ### CSV export (main.py lines 173-189) -/

/-- The status cell written by csv.writer: the decimal status code, or
"Error". -/
def statusCell : Status → String
  | .code n => toString n
  | .error => "Error"

/-- Rows of fetch_latimes.csv: the header then one row per fetch record. -/
def fetch_csv (st : CrawlState) : List (List String) :=
  ["URL", "Status"] :: st.fetch_data.map (fun p => [p.1, statusCell p.2])

/-- Rows of visit_latimes.csv: the header then one row per visit record. -/
def visit_csv (st : CrawlState) : List (List String) :=
  ["URL", "File Size (Bytes)", "Number of Outlinks", "Content Type"] ::
    st.visit_data.map (fun r => [r.1, toString r.2.1, toString r.2.2.1, r.2.2.2])

/-- Rows of urls_latimes.csv: the header then one row per link record. -/
def urls_csv (st : CrawlState) : List (List String) :=
  ["URL", "Indicator"] :: st.urls_data.map (fun p => [p.1, p.2])

/-! ### Spec-side definitions (for refinement comparisons only) -/

/-- Modelled from the spec: a host is internal when it equals the
configured root host latimes.com or is a subdomain of it. -/
def spec_is_internal (host : String) : Bool :=
  host == "latimes.com" || pyEndsWith host ".latimes.com"

/-- Modelled from the spec: the field names of the fetch table,
fetch(url, status). -/
def spec_fetch_header : List String := ["url", "status"]

/-- Modelled from the spec: the field names of the visit table,
visit(url, byte_size, outlink_count, content_type). -/
def spec_visit_header : List String :=
  ["url", "byte_size", "outlink_count", "content_type"]

/-- Modelled from the spec: the field names of the links table,
links(url, indicator). -/
def spec_links_header : List String := ["url", "indicator"]

/-! ### Helper lemmas: the href loop -/

theorem processHref_snd_visited (u : String) (d : Nat) (o : List String)
    (st : CrawlState) (h : String) :
    ((processHref u d (o, st) h).2).visited = st.visited := by
  simp only [processHref]
  split <;> rfl

theorem processHref_snd_fetch (u : String) (d : Nat) (o : List String)
    (st : CrawlState) (h : String) :
    ((processHref u d (o, st) h).2).fetch_data = st.fetch_data := by
  simp only [processHref]
  split <;> rfl

theorem processHref_snd_visit (u : String) (d : Nat) (o : List String)
    (st : CrawlState) (h : String) :
    ((processHref u d (o, st) h).2).visit_data = st.visit_data := by
  simp only [processHref]
  split <;> rfl

theorem processHref_snd_urls (u : String) (d : Nat) (o : List String)
    (st : CrawlState) (h : String) :
    ((processHref u d (o, st) h).2).urls_data =
      st.urls_data ++ [resolve_and_classify u h] := by
  simp only [processHref, resolve_and_classify]
  split <;> rfl

theorem processHref_snd_queue (u : String) (d : Nat) (o : List String)
    (st : CrawlState) (h : String) :
    ((processHref u d (o, st) h).2).queue =
      (if indicator_of (urljoin u h) = "OK" ∧ urljoin u h ∉ st.visited then
        st.queue ++ [(urljoin u h, d + 1)]
      else st.queue) := by
  simp only [processHref]
  split <;> rfl

theorem processHref_fst (u : String) (d : Nat) (o : List String)
    (st : CrawlState) (h : String) :
    (processHref u d (o, st) h).1 = addDistinct o (urljoin u h) := rfl

theorem processHref_eta (u : String) (d : Nat) (o : List String)
    (st : CrawlState) (h : String) :
    processHref u d (o, st) h =
      ((processHref u d (o, st) h).1, (processHref u d (o, st) h).2) := rfl

theorem foldl_processHref_visited (u : String) (d : Nat) (hrefs : List String) :
    ∀ (o : List String) (st : CrawlState),
      ((hrefs.foldl (processHref u d) (o, st)).2).visited = st.visited := by
  induction hrefs with
  | nil => intro o st; rfl
  | cons h t ih =>
    intro o st
    rw [List.foldl_cons, processHref_eta, ih]
    exact processHref_snd_visited u d o st h

theorem foldl_processHref_fetch (u : String) (d : Nat) (hrefs : List String) :
    ∀ (o : List String) (st : CrawlState),
      ((hrefs.foldl (processHref u d) (o, st)).2).fetch_data = st.fetch_data := by
  induction hrefs with
  | nil => intro o st; rfl
  | cons h t ih =>
    intro o st
    rw [List.foldl_cons, processHref_eta, ih]
    exact processHref_snd_fetch u d o st h

theorem foldl_processHref_visit (u : String) (d : Nat) (hrefs : List String) :
    ∀ (o : List String) (st : CrawlState),
      ((hrefs.foldl (processHref u d) (o, st)).2).visit_data = st.visit_data := by
  induction hrefs with
  | nil => intro o st; rfl
  | cons h t ih =>
    intro o st
    rw [List.foldl_cons, processHref_eta, ih]
    exact processHref_snd_visit u d o st h

theorem foldl_processHref_urls (u : String) (d : Nat) (hrefs : List String) :
    ∀ (o : List String) (st : CrawlState),
      ((hrefs.foldl (processHref u d) (o, st)).2).urls_data =
        st.urls_data ++ hrefs.map (resolve_and_classify u) := by
  induction hrefs with
  | nil => intro o st; simp
  | cons h t ih =>
    intro o st
    rw [List.foldl_cons, processHref_eta, ih, processHref_snd_urls]
    simp

theorem foldl_processHref_fst (u : String) (d : Nat) (hrefs : List String) :
    ∀ (o : List String) (st : CrawlState),
      (hrefs.foldl (processHref u d) (o, st)).1 =
        (hrefs.map (urljoin u)).foldl addDistinct o := by
  induction hrefs with
  | nil => intro o st; rfl
  | cons h t ih =>
    intro o st
    rw [List.foldl_cons, processHref_eta, ih, processHref_fst, List.map_cons,
      List.foldl_cons]

/-! ### Helper lemmas: addDistinct counts distinct elements -/

theorem addDistinct_toFinset (o : List String) (a : String) :
    (addDistinct o a).toFinset = insert a o.toFinset := by
  unfold addDistinct
  split
  · rw [Finset.insert_eq_self.mpr (List.mem_toFinset.mpr (by assumption))]
  · simp [List.toFinset_append, Finset.insert_eq, Finset.union_comm]

theorem addDistinct_nodup (o : List String) (a : String) (h : o.Nodup) :
    (addDistinct o a).Nodup := by
  unfold addDistinct
  split
  · exact h
  · rename_i hna
    simp [List.nodup_append, h, hna]

theorem foldl_addDistinct_toFinset (l : List String) :
    ∀ o : List String, (l.foldl addDistinct o).toFinset = o.toFinset ∪ l.toFinset := by
  induction l with
  | nil => intro o; simp
  | cons a t ih =>
    intro o
    rw [List.foldl_cons, ih, addDistinct_toFinset]
    ext x
    simp only [Finset.mem_union, Finset.mem_insert, List.toFinset_cons]
    tauto

theorem foldl_addDistinct_nodup (l : List String) :
    ∀ o : List String, o.Nodup → (l.foldl addDistinct o).Nodup := by
  induction l with
  | nil => intro o ho; exact ho
  | cons a t ih =>
    intro o ho
    exact ih _ (addDistinct_nodup o a ho)

theorem foldl_addDistinct_length (l : List String) :
    (l.foldl addDistinct []).length = l.toFinset.card := by
  have h1 := foldl_addDistinct_toFinset l []
  have h2 := foldl_addDistinct_nodup l [] (List.nodup_nil)
  rw [← List.toFinset_card_of_nodup h2, h1]
  simp

/-! ### Helper lemmas: handle200 -/

theorem handle200_visited (u : String) (d : Nat) (hdr : Option String)
    (size : Nat) (hrefs : List String) (st : CrawlState) :
    (handle200 u d hdr size hrefs st).visited = st.visited := by
  simp only [handle200]
  split
  · split
    · exact foldl_processHref_visited u d hrefs [] st
    · rfl
  · rfl

theorem handle200_fetch (u : String) (d : Nat) (hdr : Option String)
    (size : Nat) (hrefs : List String) (st : CrawlState) :
    (handle200 u d hdr size hrefs st).fetch_data = st.fetch_data := by
  simp only [handle200]
  split
  · split
    · exact foldl_processHref_fetch u d hrefs [] st
    · rfl
  · rfl

theorem handle200_visit_data (u : String) (d : Nat) (hdr : Option String)
    (size : Nat) (hrefs : List String) (st : CrawlState) :
    (handle200 u d hdr size hrefs st).visit_data = st.visit_data ∨
    ∃ n : Nat,
      (content_type_of hdr ∈ allowed_types ∨
        pyStartsWith (content_type_of hdr) "text/html" = true) ∧
      (handle200 u d hdr size hrefs st).visit_data =
        st.visit_data ++ [(u, size, n, content_type_of hdr)] := by
  simp only [handle200]
  split
  · rename_i hok
    rw [Bool.or_eq_true, decide_eq_true_eq] at hok
    split
    · refine .inr ⟨(hrefs.foldl (processHref u d) ([], st)).1.length, hok, ?_⟩
      simp [foldl_processHref_visit u d hrefs [] st]
    · exact .inr ⟨0, hok, by simp⟩
  · exact .inl rfl

/-! ### Helper lemmas: one worker iteration -/

theorem workerStep_discard (cfg : Config) (st : CrawlState) (f : FetchOutcome)
    (u : String) (d : Nat) (rest : List (String × Nat))
    (hq : st.queue = (u, d) :: rest)
    (hg : u ∈ st.visited ∨ d > cfg.max_depth ∨ st.visited.length ≥ cfg.max_pages) :
    workerStep cfg st f = { st with queue := rest } := by
  simp only [workerStep, hq]
  rw [if_pos hg]

/-- Complete case analysis of one worker iteration: either the state is
unchanged (empty queue), or the head entry is discarded under the lock, or
the head entry is freshly claimed, in which case exactly one fetch record
for it is appended and at most one visit record (with an allowed content
type, and only when the fetch status was 200). -/
theorem workerStep_cases (cfg : Config) (st : CrawlState) (f : FetchOutcome) :
    workerStep cfg st f = st ∨
    (∃ e rest, st.queue = e :: rest ∧
      workerStep cfg st f = { st with queue := rest }) ∨
    (∃ u d rest s, st.queue = (u, d) :: rest ∧ u ∉ st.visited ∧
      st.visited.length < cfg.max_pages ∧ d ≤ cfg.max_depth ∧
      (workerStep cfg st f).visited = st.visited ++ [u] ∧
      (workerStep cfg st f).fetch_data = st.fetch_data ++ [(u, s)] ∧
      ((workerStep cfg st f).visit_data = st.visit_data ∨
        (s = Status.code 200 ∧ ∃ sz n ct,
          (ct ∈ allowed_types ∨ pyStartsWith ct "text/html" = true) ∧
          (workerStep cfg st f).visit_data = st.visit_data ++ [(u, sz, n, ct)]))) := by
  rcases hq : st.queue with _ | ⟨⟨u, d⟩, rest⟩
  · left
    simp [workerStep, hq]
  by_cases hg : u ∈ st.visited ∨ d > cfg.max_depth ∨
      st.visited.length ≥ cfg.max_pages
  · exact .inr (.inl ⟨(u, d), rest, rfl, workerStep_discard cfg st f u d rest hq hg⟩)
  have hne := hg
  push_neg at hg
  obtain ⟨hu, hd, hl⟩ := hg
  refine .inr (.inr ⟨u, d, rest, ?_⟩)
  rcases f with _ | ⟨status, hdr, size, hrefs⟩
  · have hstep : workerStep cfg st FetchOutcome.transportError =
        { st with
          queue := rest,
          visited := st.visited ++ [u],
          fetch_data := st.fetch_data ++ [(u, Status.error)] } := by
      simp only [workerStep, hq]
      rw [if_neg hne]
    exact ⟨Status.error, rfl, hu, hl, hd, by rw [hstep], by rw [hstep],
      .inl (by rw [hstep])⟩
  · refine ⟨Status.code status, rfl, hu, hl, hd, ?_⟩
    have hstep : workerStep cfg st (FetchOutcome.response status hdr size hrefs) =
        (if status = 200 then
          handle200 u d hdr size hrefs
            { st with
              queue := rest,
              visited := st.visited ++ [u],
              fetch_data := st.fetch_data ++ [(u, Status.code status)] }
        else
          { st with
            queue := rest,
            visited := st.visited ++ [u],
            fetch_data := st.fetch_data ++ [(u, Status.code status)] }) := by
      simp only [workerStep, hq]
      rw [if_neg hne]
    by_cases h200 : status = 200
    · rw [hstep, if_pos h200]
      refine ⟨by rw [handle200_visited], by rw [handle200_fetch], ?_⟩
      rcases handle200_visit_data u d hdr size hrefs
          { st with
            queue := rest,
            visited := st.visited ++ [u],
            fetch_data := st.fetch_data ++ [(u, Status.code status)] } with
        hv | ⟨n, hct, hv⟩
      · exact .inl (by rw [hv])
      · exact .inr ⟨by rw [h200], size, n, content_type_of hdr, hct, by rw [hv]⟩
    · rw [hstep, if_neg h200]
      exact ⟨rfl, rfl, .inl rfl⟩

/-- The master invariant of reachable crawl states: the visited set is
duplicate-free and within budget, fetch records have pairwise distinct
URLs all of which are visited, and every visit record is backed by a 200
fetch record and carries an allowed content type. -/
theorem reachable_invariant (cfg : Config) (st : CrawlState)
    (h : Reachable cfg st) :
    st.visited.Nodup ∧ st.visited.length ≤ cfg.max_pages ∧
    (st.fetch_data.map Prod.fst).Nodup ∧
    (∀ p ∈ st.fetch_data, p.1 ∈ st.visited) ∧
    (∀ r ∈ st.visit_data, (r.1, Status.code 200) ∈ st.fetch_data ∧
      (r.2.2.2 ∈ allowed_types ∨ pyStartsWith r.2.2.2 "text/html" = true)) := by
  induction h with
  | init => simp [initState]
  | @step st f hr ih =>
    obtain ⟨hnd, hlen, hfnd, hfv, hvis⟩ := ih
    rcases workerStep_cases cfg st f with heq | ⟨e, rest, hq, heq⟩ |
      ⟨u, d, rest, s, hq, hu, hl, hd, hv, hf, hvd⟩
    · rw [heq]
      exact ⟨hnd, hlen, hfnd, hfv, hvis⟩
    · rw [heq]
      exact ⟨hnd, hlen, hfnd, hfv, hvis⟩
    · have hnd' : (st.visited ++ [u]).Nodup := by
        simp [List.nodup_append, hnd, hu]
      have hlen' : (st.visited ++ [u]).length ≤ cfg.max_pages := by
        simp only [List.length_append, List.length_singleton]
        omega
      have hufetch : u ∉ st.fetch_data.map Prod.fst := by
        intro hmem
        obtain ⟨p, hp, hpu⟩ := List.mem_map.mp hmem
        exact hu (hpu ▸ hfv p hp)
      have hfnd' : ((st.fetch_data ++ [(u, s)]).map Prod.fst).Nodup := by
        simp only [List.map_append, List.map_cons, List.map_nil]
        simp [List.nodup_append, hfnd, hufetch]
      refine ⟨hv ▸ hnd', hv ▸ hlen', hf ▸ hfnd', ?_, ?_⟩
      · rw [hf, hv]
        intro p hp
        rcases List.mem_append.mp hp with hp | hp
        · exact List.mem_append_left _ (hfv p hp)
        · simp only [List.mem_singleton] at hp
          subst hp
          simp
      · rcases hvd with hvd | ⟨hs, sz, n, ct, hct, hvd⟩
        · rw [hvd, hf]
          intro r hr
          exact ⟨List.mem_append_left _ (hvis r hr).1, (hvis r hr).2⟩
        · rw [hvd, hf]
          intro r hr
          rcases List.mem_append.mp hr with hr | hr
          · exact ⟨List.mem_append_left _ (hvis r hr).1, (hvis r hr).2⟩
          · simp only [List.mem_singleton] at hr
            subst hr
            refine ⟨?_, hct⟩
            subst hs
            simp

/-! ### Concrete states used by the claim theorems -/

/-- The state after the seed page is fetched as HTML carrying the same
internal href twice. -/
def demoState : CrawlState :=
  workerStep defaultConfig (initState defaultConfig)
    (FetchOutcome.response 200 (some "text/html; charset=utf-8") 100
      ["/c/d", "/c/d"])

/-- demoState after the first queued copy of the duplicated link is
claimed and fetched (a 404, so no further links). -/
def demoState2 : CrawlState :=
  workerStep defaultConfig demoState (FetchOutcome.response 404 none 0 [])

/-- demoState2 after the second queued copy of the duplicated link is
claimed: it is already visited, so it is discarded. -/
def demoState3 : CrawlState :=
  workerStep defaultConfig demoState2
    (FetchOutcome.response 200 (some "text/html") 50 [])

/-- A state whose queue head is beyond the depth bound. -/
def deepState : CrawlState :=
  { initState defaultConfig with
    queue := [("https://www.latimes.com/deep", 17)] }

/-- A configuration with a page budget of one, to exercise the budget
check with a concretely constructible state. -/
def smallConfig : Config :=
  { root_url := "https://www.latimes.com", max_pages := 1, max_depth := 16 }

/-- Under smallConfig, the state after the seed page is fetched: claiming
the seed exhausts the budget of one page, yet its internal link is still
enqueued. -/
def overBudgetState : CrawlState :=
  workerStep smallConfig (initState smallConfig)
    (FetchOutcome.response 200 (some "text/html") 10 ["/c/d"])

/-! ### C1 -/

/-- C1: in every reachable crawl state the visited set has no duplicates
and its size never exceeds max_pages; moreover a worker iteration either
leaves the visited set unchanged or adds a single URL that was not yet
present while the count was strictly below max_pages. -/
theorem c1_visited_nodup_and_bounded (cfg : Config) (st : CrawlState)
    (h : Reachable cfg st) :
    st.visited.Nodup ∧ st.visited.length ≤ cfg.max_pages ∧
    (∀ f : FetchOutcome,
      (workerStep cfg st f).visited = st.visited ∨
      ∃ u, u ∉ st.visited ∧ st.visited.length < cfg.max_pages ∧
        (workerStep cfg st f).visited = st.visited ++ [u]) := by
  obtain ⟨hnd, hlen, -, -, -⟩ := reachable_invariant cfg st h
  refine ⟨hnd, hlen, ?_⟩
  intro f
  rcases workerStep_cases cfg st f with heq | ⟨e, rest, hq, heq⟩ |
    ⟨u, d, rest, s, hq, hu, hl, hd, hv, -, -⟩
  · exact .inl (by rw [heq])
  · exact .inl (by rw [heq])
  · exact .inr ⟨u, hu, hl, hv⟩

/-- Witness for C1 at the concrete reachable state demoState. -/
theorem c1_witness :
    demoState.visited.Nodup ∧
    demoState.visited.length ≤ defaultConfig.max_pages := by
  have h := c1_visited_nodup_and_bounded defaultConfig demoState
    (Reachable.step _ Reachable.init)
  exact ⟨h.1, h.2.1⟩

/-! ### C3 -/

/-- C3: a claimed frontier entry whose depth exceeds max_depth is
discarded at claim time with no other state change (so it is never
fetched and appends no fetch record), and conversely any iteration that
appends a fetch record claimed an entry of depth at most max_depth. -/
theorem c3_deep_entries_discarded (cfg : Config) :
    (∀ st f u d rest, st.queue = (u, d) :: rest → d > cfg.max_depth →
      workerStep cfg st f = { st with queue := rest }) ∧
    (∀ st f, (workerStep cfg st f).fetch_data ≠ st.fetch_data →
      ∃ u d rest, st.queue = (u, d) :: rest ∧ d ≤ cfg.max_depth) := by
  constructor
  · intro st f u d rest hq hd
    exact workerStep_discard cfg st f u d rest hq (.inr (.inl hd))
  · intro st f hne
    rcases workerStep_cases cfg st f with heq | ⟨e, rest, hq, heq⟩ |
      ⟨u, d, rest, s, hq, hu, hl, hd, hv, hf, hvd⟩
    · exact absurd (by rw [heq]) hne
    · exact absurd (by rw [heq]) hne
    · exact ⟨u, d, rest, hq, hd⟩

/-- Witness for C3: a depth-17 entry is dropped without a fetch record,
and the seed entry of a fresh crawl is within the depth bound. -/
theorem c3_witness :
    workerStep defaultConfig deepState FetchOutcome.transportError =
      { deepState with queue := [] } ∧
    ∃ u d rest, (initState defaultConfig).queue = (u, d) :: rest ∧
      d ≤ defaultConfig.max_depth := by
  constructor
  · exact (c3_deep_entries_discarded defaultConfig).1 deepState
      FetchOutcome.transportError "https://www.latimes.com/deep" 17 [] rfl
      (by decide)
  · exact (c3_deep_entries_discarded defaultConfig).2 (initState defaultConfig)
      FetchOutcome.transportError (by decide)

/-! ### C7 -/

/-- C7: a transport failure on a freshly claimed URL appends exactly one
fetch record with status "Error", changes no other table (in particular no
visit record and no link records), leaves the URL in the visited set, and
any later claim of that URL is discarded without a new fetch record. -/
theorem c7_transport_error_terminal (cfg : Config) (st : CrawlState)
    (u : String) (d : Nat) (rest : List (String × Nat))
    (hq : st.queue = (u, d) :: rest) (hu : u ∉ st.visited)
    (hd : d ≤ cfg.max_depth) (hl : st.visited.length < cfg.max_pages) :
    workerStep cfg st FetchOutcome.transportError =
      { st with
        queue := rest,
        visited := st.visited ++ [u],
        fetch_data := st.fetch_data ++ [(u, Status.error)] } ∧
    u ∈ (workerStep cfg st FetchOutcome.transportError).visited ∧
    (∀ st2 f d2 rest2, st2.queue = (u, d2) :: rest2 → u ∈ st2.visited →
      workerStep cfg st2 f = { st2 with queue := rest2 }) := by
  have hne : ¬ (u ∈ st.visited ∨ d > cfg.max_depth ∨
      st.visited.length ≥ cfg.max_pages) := by
    push_neg
    exact ⟨hu, hd, hl⟩
  have hstep : workerStep cfg st FetchOutcome.transportError =
      { st with
        queue := rest,
        visited := st.visited ++ [u],
        fetch_data := st.fetch_data ++ [(u, Status.error)] } := by
    simp only [workerStep, hq]
    rw [if_neg hne]
  refine ⟨hstep, ?_, ?_⟩
  · rw [hstep]
    simp
  · intro st2 f d2 rest2 hq2 hv2
    exact workerStep_discard cfg st2 f u d2 rest2 hq2 (.inl hv2)

/-- Witness for C7: a transport failure on the seed fetch. -/
theorem c7_witness :
    workerStep defaultConfig (initState defaultConfig)
      FetchOutcome.transportError =
      { visited := ["https://www.latimes.com"], queue := [], fetch_data :=
        [("https://www.latimes.com", Status.error)], visit_data := [],
        urls_data := [] } ∧
    "https://www.latimes.com" ∈
      (workerStep defaultConfig (initState defaultConfig)
        FetchOutcome.transportError).visited := by
  have h := c7_transport_error_terminal defaultConfig
    (initState defaultConfig) "https://www.latimes.com" 0 [] rfl
    (by decide) (by decide) (by decide)
  refine ⟨?_, h.2.1⟩
  rw [h.1]
  rfl

/-! ### C2 -/

/-- C2 counterexample: the code classifies a URL on the host
notlatimes.com as OK (its netloc merely ends with the string
"latimes.com"), although that host neither equals latimes.com nor is a
subdomain of it, refuting the claimed "if and only if". -/
theorem c2_counterexample_suffix_not_subdomain :
    resolve_and_classify "https://www.latimes.com/a/b"
      "https://notlatimes.com/x" = ("https://notlatimes.com/x", "OK") ∧
    netloc_of "https://notlatimes.com/x" = "notlatimes.com" ∧
    spec_is_internal "notlatimes.com" = false := by
  refine ⟨by decide, by decide, by decide⟩

/-- C2 amended: the classifier resolves the href with urljoin and labels
it OK exactly when the netloc of the resolved URL ends with the string
"latimes.com" (a suffix test, not a host-equality-or-subdomain test); the
two concrete examples of the claim behave as stated. -/
theorem c2_amended_suffix_classifier :
    (∀ base href,
      (resolve_and_classify base href).2 = "OK" ↔
        pyEndsWith (netloc_of (resolve_and_classify base href).1)
          "latimes.com" = true) ∧
    resolve_and_classify "https://www.latimes.com/a/b" "/c/d" =
      ("https://www.latimes.com/c/d", "OK") ∧
    resolve_and_classify "https://www.latimes.com/a/b"
      "https://external.example.com/x" =
      ("https://external.example.com/x", "N_OK") := by
  refine ⟨?_, by decide, by decide⟩
  intro base href
  simp only [resolve_and_classify, indicator_of]
  split
  · rename_i hcond
    simp [hcond]
  · rename_i hcond
    simp only [Bool.not_eq_true] at hcond
    simp [hcond]

/-! ### C4 -/

/-- C4 counterexample: with a budget of one page, fetching the seed
exhausts the budget, yet the internal link found on the seed page is still
inserted into the frontier in the same reachable step — the offer path
checks only the visited set, never the page budget. -/
theorem c4_counterexample_offer_ignores_budget :
    Reachable smallConfig overBudgetState ∧
    overBudgetState.visited.length ≥ smallConfig.max_pages ∧
    overBudgetState.queue = [("https://www.latimes.com/c/d", 1)] ∧
    "https://www.latimes.com/c/d" ∉ overBudgetState.visited := by
  refine ⟨Reachable.step _ Reachable.init, by decide, by decide, by decide⟩

/-- C4 amended: offering a discovered link always appends exactly one link
record, and inserts a frontier entry at depth+1 exactly when the link is
classified OK and its URL is not in the visited set; the page budget is
not consulted at offer time (it is enforced at claim time instead). -/
theorem c4_amended_offer_checks_visited_only (u : String) (d : Nat)
    (o : List String) (st : CrawlState) (href : String) :
    ((processHref u d (o, st) href).2).urls_data =
      st.urls_data ++ [resolve_and_classify u href] ∧
    ((processHref u d (o, st) href).2).queue =
      (if indicator_of (urljoin u href) = "OK" ∧ urljoin u href ∉ st.visited
      then st.queue ++ [(urljoin u href, d + 1)]
      else st.queue) :=
  ⟨processHref_snd_urls u d o st href, processHref_snd_queue u d o st href⟩

/-! ### C5 -/

/-- C5 counterexample: a page carrying the same href twice yields two link
records for a single distinct resolved target (records are appended per
raw href occurrence), while outlink_count is 1. -/
theorem c5_counterexample_linkrecord_per_occurrence :
    demoState.urls_data =
      [("https://www.latimes.com/c/d", "OK"),
       ("https://www.latimes.com/c/d", "OK")] ∧
    (demoState.urls_data.map Prod.fst).toFinset.card = 1 ∧
    demoState.visit_data = [("https://www.latimes.com", 100, 1, "text/html")] := by
  refine ⟨by decide, by decide, by decide⟩

/-- C5 amended: for a freshly claimed URL answered 200 with an HTML
content type, exactly one link record is appended per raw href occurrence
(in page order), and exactly one visit record is appended whose
outlink_count is the number of distinct resolved targets. -/
theorem c5_amended_linkrecords_and_outlinks (cfg : Config) (st : CrawlState)
    (u : String) (d : Nat) (rest : List (String × Nat)) (hdr : Option String)
    (size : Nat) (hrefs : List String)
    (hq : st.queue = (u, d) :: rest) (hu : u ∉ st.visited)
    (hd : d ≤ cfg.max_depth) (hl : st.visited.length < cfg.max_pages)
    (hhtml : pyStartsWith (content_type_of hdr) "text/html" = true) :
    (workerStep cfg st (FetchOutcome.response 200 hdr size hrefs)).urls_data =
      st.urls_data ++ hrefs.map (resolve_and_classify u) ∧
    (workerStep cfg st (FetchOutcome.response 200 hdr size hrefs)).visit_data =
      st.visit_data ++
        [(u, size, (hrefs.map (urljoin u)).toFinset.card,
          content_type_of hdr)] := by
  have hne : ¬ (u ∈ st.visited ∨ d > cfg.max_depth ∨
      st.visited.length ≥ cfg.max_pages) := by
    push_neg
    exact ⟨hu, hd, hl⟩
  have hstep : workerStep cfg st (FetchOutcome.response 200 hdr size hrefs) =
      handle200 u d hdr size hrefs
        { st with
          queue := rest,
          visited := st.visited ++ [u],
          fetch_data := st.fetch_data ++ [(u, Status.code 200)] } := by
    simp only [workerStep, hq]
    rw [if_neg hne]
    simp
  rw [hstep]
  simp only [handle200, hhtml, Bool.or_true, if_true, if_pos rfl]
  constructor
  · rw [foldl_processHref_urls]
  · rw [foldl_processHref_visit, foldl_processHref_fst,
      foldl_addDistinct_length]

/-- Witness for the C5 scenario: a 200 HTML page with three distinct
resolvable hrefs, two internal and one external, yields one visit record
with outlink_count 3 and three link records, two OK and one N_OK. -/
theorem c5_witness :
    (workerStep defaultConfig (initState defaultConfig)
      (FetchOutcome.response 200 (some "text/html; charset=utf-8") 100
        ["/c/d", "https://www.latimes.com/e",
         "https://external.example.com/x"])).urls_data =
      [("https://www.latimes.com/c/d", "OK"),
       ("https://www.latimes.com/e", "OK"),
       ("https://external.example.com/x", "N_OK")] ∧
    (workerStep defaultConfig (initState defaultConfig)
      (FetchOutcome.response 200 (some "text/html; charset=utf-8") 100
        ["/c/d", "https://www.latimes.com/e",
         "https://external.example.com/x"])).visit_data =
      [("https://www.latimes.com", 100, 3, "text/html")] := by
  have h := c5_amended_linkrecords_and_outlinks defaultConfig
    (initState defaultConfig) "https://www.latimes.com" 0 []
    (some "text/html; charset=utf-8") 100
    ["/c/d", "https://www.latimes.com/e", "https://external.example.com/x"]
    rfl (by decide) (by decide) (by decide) (by decide)
  constructor
  · rw [h.1]
    decide
  · rw [h.2]
    decide

/-! ### C6 -/

/-- C6: in every reachable state, every URL carrying a visit record has
exactly one fetch record, that record has status 200, and the stored
content type is HTML or one of the allowed types. -/
theorem c6_visit_unique_fetch_200 (cfg : Config) (st : CrawlState)
    (h : Reachable cfg st) (u : String) (sz n : Nat) (ct : String)
    (hmem : (u, sz, n, ct) ∈ st.visit_data) :
    st.fetch_data.countP (fun p => p.1 == u) = 1 ∧
    (u, Status.code 200) ∈ st.fetch_data ∧
    (ct ∈ allowed_types ∨ pyStartsWith ct "text/html" = true) := by
  obtain ⟨-, -, hfnd, -, hvis⟩ := reachable_invariant cfg st h
  obtain ⟨hf200, hct⟩ := hvis (u, sz, n, ct) hmem
  refine ⟨?_, hf200, hct⟩
  have hmemf : u ∈ st.fetch_data.map Prod.fst :=
    List.mem_map.mpr ⟨(u, Status.code 200), hf200, rfl⟩
  have hcount : (st.fetch_data.map Prod.fst).count u = 1 :=
    List.count_eq_one_of_mem hfnd hmemf
  rw [List.count_eq_countP, List.countP_map] at hcount
  exact hcount

/-- Witness for C6 at the reachable state demoState, whose seed page has a
visit record. -/
theorem c6_witness :
    demoState.fetch_data.countP
      (fun p => p.1 == "https://www.latimes.com") = 1 ∧
    ("https://www.latimes.com", Status.code 200) ∈ demoState.fetch_data ∧
    ("text/html" ∈ allowed_types ∨
      pyStartsWith "text/html" "text/html" = true) :=
  c6_visit_unique_fetch_200 defaultConfig demoState
    (Reachable.step _ Reachable.init) "https://www.latimes.com" 100 1
    "text/html" (by decide)

/-! ### C9 -/

/-- C9: the frontier may hold several pending entries for the same URL
(offers are deduplicated only against the visited set, not against each
other), yet in every reachable state the fetch records have pairwise
distinct URLs, because the claim-time test-and-insert discards every
duplicate after the first claim; the concrete three-step crawl
demoState/demoState2/demoState3 exhibits both: two queued entries for the
duplicated link, then exactly one fetch record for it. -/
theorem c9_duplicate_entries_single_fetch :
    (∀ (cfg : Config) (st : CrawlState), Reachable cfg st →
      (st.fetch_data.map Prod.fst).Nodup) ∧
    ¬ (demoState.queue.map Prod.fst).Nodup ∧
    demoState3.fetch_data.countP
      (fun p => p.1 == "https://www.latimes.com/c/d") = 1 ∧
    demoState3.queue = [] := by
  refine ⟨?_, by decide, by decide, by decide⟩
  intro cfg st h
  exact (reachable_invariant cfg st h).2.2.1

/-- Witness for C9 at the concrete reachable state demoState3. -/
theorem c9_witness : (demoState3.fetch_data.map Prod.fst).Nodup :=
  c9_duplicate_entries_single_fetch.1 defaultConfig demoState3
    (Reachable.step _ (Reachable.step _ (Reachable.step _ Reachable.init)))

/-! ### C10 -/

/-- C10: every visit record appended by a worker iteration stores the
parameter-stripped content type — the Content-Type header value up to the
first semicolon with surrounding whitespace stripped, the missing header
read as the empty string — never the full header value. -/
theorem c10_content_type_stripped :
    (∀ (cfg : Config) (st : CrawlState) (status : Nat) (hdr : Option String)
      (size : Nat) (hrefs : List String)
      (r : String × Nat × Nat × String),
      r ∈ (workerStep cfg st
        (FetchOutcome.response status hdr size hrefs)).visit_data →
      r ∈ st.visit_data ∨ r.2.2.2 = content_type_of hdr) ∧
    content_type_of (some "text/html; charset=utf-8") = "text/html" ∧
    content_type_of none = "" ∧
    content_type_of (some "text/html; charset=utf-8") ≠
      "text/html; charset=utf-8" := by
  refine ⟨?_, by decide, by decide, by decide⟩
  intro cfg st status hdr size hrefs r hr
  rcases hq : st.queue with _ | ⟨⟨u, d⟩, rest⟩
  · have heq : workerStep cfg st
        (FetchOutcome.response status hdr size hrefs) = st := by
      simp [workerStep, hq]
    rw [heq] at hr
    exact .inl hr
  by_cases hg : u ∈ st.visited ∨ d > cfg.max_depth ∨
      st.visited.length ≥ cfg.max_pages
  · rw [workerStep_discard cfg st _ u d rest hq hg] at hr
    exact .inl hr
  have hstep : workerStep cfg st (FetchOutcome.response status hdr size hrefs) =
      (if status = 200 then
        handle200 u d hdr size hrefs
          { st with
            queue := rest,
            visited := st.visited ++ [u],
            fetch_data := st.fetch_data ++ [(u, Status.code status)] }
      else
        { st with
          queue := rest,
          visited := st.visited ++ [u],
          fetch_data := st.fetch_data ++ [(u, Status.code status)] }) := by
    simp only [workerStep, hq]
    rw [if_neg hg]
  by_cases h200 : status = 200
  · rw [hstep, if_pos h200] at hr
    rcases handle200_visit_data u d hdr size hrefs
        { st with
          queue := rest,
          visited := st.visited ++ [u],
          fetch_data := st.fetch_data ++ [(u, Status.code status)] } with
      hvd | ⟨n, hct, hvd⟩
    · rw [hvd] at hr
      exact .inl hr
    · rw [hvd] at hr
      rcases List.mem_append.mp hr with hr | hr
      · exact .inl hr
      · simp only [List.mem_singleton] at hr
        subst hr
        exact .inr rfl
  · rw [hstep, if_neg h200] at hr
    exact .inl hr

/-- Witness for C10 at the seed fetch of demoState, whose header carries a
charset parameter. -/
theorem c10_witness :
    ("https://www.latimes.com", (100 : Nat), (1 : Nat), "text/html") ∈
      (initState defaultConfig).visit_data ∨
    "text/html" = content_type_of (some "text/html; charset=utf-8") :=
  c10_content_type_stripped.1 defaultConfig (initState defaultConfig) 200
    (some "text/html; charset=utf-8") 100 ["/c/d", "/c/d"]
    ("https://www.latimes.com", 100, 1, "text/html") (by decide)

/-! ### C8 -/

/-- C8 counterexample: none of the three exported header rows uses the
field names of the specification (url/status, url/byte_size/outlink_count/
content_type, url/indicator); the actual fetch header row is URL,Status. -/
theorem c8_counterexample_header_names :
    (fetch_csv (initState defaultConfig)).head? ≠ some spec_fetch_header ∧
    (visit_csv (initState defaultConfig)).head? ≠ some spec_visit_header ∧
    (urls_csv (initState defaultConfig)).head? ≠ some spec_links_header ∧
    (fetch_csv (initState defaultConfig)).head? = some ["URL", "Status"] := by
  refine ⟨by decide, by decide, by decide, by decide⟩

/-- C8 amended: each exported table begins with a header row naming its
fields — "URL","Status" for fetch; "URL","File Size (Bytes)",
"Number of Outlinks","Content Type" for visit; "URL","Indicator" for
links — followed by one row per record, in order. -/
theorem c8_amended_actual_headers (st : CrawlState) :
    (fetch_csv st).head? = some ["URL", "Status"] ∧
    (fetch_csv st).tail = st.fetch_data.map (fun p => [p.1, statusCell p.2]) ∧
    (fetch_csv st).length = st.fetch_data.length + 1 ∧
    (visit_csv st).head? =
      some ["URL", "File Size (Bytes)", "Number of Outlinks", "Content Type"] ∧
    (visit_csv st).tail = st.visit_data.map
      (fun r => [r.1, toString r.2.1, toString r.2.2.1, r.2.2.2]) ∧
    (visit_csv st).length = st.visit_data.length + 1 ∧
    (urls_csv st).head? = some ["URL", "Indicator"] ∧
    (urls_csv st).tail = st.urls_data.map (fun p => [p.1, p.2]) ∧
    (urls_csv st).length = st.urls_data.length + 1 := by
  refine ⟨rfl, rfl, ?_, rfl, rfl, ?_, rfl, rfl, ?_⟩ <;>
    simp [fetch_csv, visit_csv, urls_csv]

end Crawler
